import Mathlib

/-!
Verification of the dwdGribExtractor forecast-retrieval pipeline
(`dwdGribExtractor/icon.py` and `app/utils.py`) against its design
specification.  The Python code is shallowly embedded: pure helpers become
Lean functions, the network / filesystem / grib-decoding environment is an
explicit `World` record of oracles, the scratch filesystem is a partial map
from paths to byte lists, and Python exceptions become explicit flags or
`Option`/`Except` results.
-/

namespace DwdGrib

/-- File contents are modelled as byte lists. -/
abbrev Bytes := List Nat

/-- The scratch filesystem: a partial map from path strings to file
contents.  `none` means no file exists at that path. -/
abbrev FS := String → Option Bytes

/-- A per-location time series, as built by `pandas.Series` label
assignment: a list of `(timestamp, value)` pairs in insertion order.
Timestamps are integers (epoch offsets); grib values are modelled as
integers since no claim computes with the numeric payload. -/
abbrev Series := List (Int × Int)

/-- `data.loc[k] = v` on a pandas Series: overwrite the entry in place if
the label exists, otherwise append at the end. -/
def seriesSet (data : Series) (k v : Int) : Series :=
  if data.any (fun e => e.1 == k) then
    data.map (fun e => if e.1 == k then (k, v) else e)
  else
    data ++ [(k, v)]

/-- A decoded grib dataset as observed through xarray/cfgrib in
`extractValuesFromGrib`: a base time (`ncFile.time.values`), the list of
step offsets (`ncFile.step.values`; a scalar step is modelled as a
singleton list, covering the non-`Iterable` branch of the source), and the
nearest-point lookup `ncFile.sel(step, lat, lon, method="nearest")[var]`,
which may fail (e.g. the variable name is absent from the file). -/
structure GribDS where
  time : Int
  steps : List Int
  lookup : String → Int → Int × Int → Option Int

/-- The external environment of the pipeline: the HTTP oracle
(`requests.get`; `none` is a transport error, otherwise a status code and
body), the bz2 decompressor (`none` = corrupt payload raises), and the
cfgrib dataset opener (`none` = the decoded bytes cannot be opened as a
grib dataset). -/
structure World where
  http : String → Option (Nat × Bytes)
  decomp : Bytes → Option Bytes
  openDS : Bytes → Option GribDS

namespace ICON_D2

/-- `ICON_D2.getCurrentRun` from `icon.py`: a chain of non-exclusive `if`
statements on `now_utc.hour`.  The last guard is the source's literal
`h >= 23 and h < 2`. -/
def getCurrentRun (h : Nat) : String :=
  let r0 := "00"
  let r1 := if 2 ≤ h then "00" else r0
  let r2 := if 5 ≤ h then "03" else r1
  let r3 := if 8 ≤ h then "06" else r2
  let r4 := if 11 ≤ h then "09" else r3
  let r5 := if 14 ≤ h then "12" else r4
  let r6 := if 17 ≤ h then "15" else r5
  let r7 := if 20 ≤ h then "18" else r6
  if 23 ≤ h && h < 2 then "21" else r7

/-- The run table as the specification states it (§4.1): hours
`[2,5)→00`, `[5,8)→03`, `[8,11)→06`, `[11,14)→09`, `[14,17)→12`,
`[17,20)→15`, `[20,23)→18`, and `[23,24)∪[0,2)→21`.  Stated from the
spec's words, to be compared against `getCurrentRun`. -/
def specRunTable (h : Nat) : String :=
  if 2 ≤ h ∧ h < 5 then "00"
  else if 5 ≤ h ∧ h < 8 then "03"
  else if 8 ≤ h ∧ h < 11 then "06"
  else if 11 ≤ h ∧ h < 14 then "09"
  else if 14 ≤ h ∧ h < 17 then "12"
  else if 17 ≤ h ∧ h < 20 then "15"
  else if 20 ≤ h ∧ h < 23 then "18"
  else "21"

/-- The fixed remote base path assigned to `self._src` in the
constructor. -/
def srcURL : String := "https://opendata.dwd.de/weather/nwp/icon-d2/grib/"

/-- The observable state of an `ICON_D2` instance after `__init__`.
`tmpFp = none` models the `_tmpFp` attribute never having been assigned
(reading it later raises `AttributeError`). -/
structure ICONState where
  tmpFp : Option String
  forecastHours : Option Nat
  lat : Int
  lon : Int
  src : String

/-- `ICON_D2.__init__` from `icon.py`.  `existingDirs` models the set of
directories present on disk (for the `os.makedirs` call).  In the
`tmpFp is None` branch the source sets `self._tmpFp = "tmp/icond2/"` and
creates the directory if absent; in the other branch the source executes
`self._forecastHours = tmpFp` (sic) — `self._tmpFp` is never assigned —
and the subsequent unconditional `self._forecastHours = forecastHours`
overwrites that again. -/
def init (lat lon : Int) (forecastHours : Option Nat) (tmpFp : Option String)
    (existingDirs : List String) : ICONState × List String :=
  match tmpFp with
  | none =>
      (⟨some "tmp/icond2/", forecastHours, lat, lon, srcURL⟩,
       if existingDirs.contains "tmp/icond2/" then existingDirs
       else "tmp/icond2/" :: existingDirs)
  | some _ =>
      (⟨none, forecastHours, lat, lon, srcURL⟩, existingDirs)

/-- `str(h).zfill(2)` in Python: left-pad the decimal representation with
zeros to width 2. -/
def zfill2 (n : Nat) : String :=
  let s := toString n
  if s.length < 2 then "0" ++ s else s

/-- `ICON_D2.createDownloadUrl` from `icon.py`, with the ambient
`datetime.now(timezone.utc)` made explicit as the current UTC hour and the
`%Y%m%d` date stamp.  Builds one URL per lead hour `0..hours-1`; when
`self._forecastHours` is `None` the loop bound defaults to 49.  Note the
template's literal `_0{h}_` segment: the lead-hour field is a literal "0"
followed by the zero-padded hour. -/
def createDownloadUrl (src : String) (forecastHours : Option Nat) (nowHour : Nat)
    (urlDate : String) (var : String) : List String :=
  let currentRun := getCurrentRun nowHour
  let url := src ++ currentRun ++ "/" ++ var
  let hours := forecastHours.getD 49
  (List.range hours).map fun h =>
    let fileName := "icon-d2_germany_regular-lat-lon_single-level_" ++ urlDate ++
      currentRun ++ "_0" ++ zfill2 h ++ "_2d_" ++ var ++ ".grib2.bz2"
    url ++ "/" ++ fileName

/-- `ICON_D2.downloadAndExtractBzFile` from `icon.py`.  The whole body sits
in `try/except Exception`, so the function never raises: it is a total
transformation of the scratch filesystem.  On HTTP status 200 the source
executes `with open(destFp, 'wb') as f: f.write(decompress(r.content))`:
entering the `with` creates/truncates the file (empty contents) before
`decompress` is evaluated, so a decompression failure leaves an empty file
behind while the raised error is swallowed by the outer `except`. -/
def downloadAndExtractBzFile (w : World) (url destFp : String) (fs : FS) : FS :=
  match w.http url with
  | none => fs
  | some (status, content) =>
      if status == 200 then
        match w.decomp content with
        | some d => fun p => if p == destFp then some d else fs p
        | none => fun p => if p == destFp then some ([] : Bytes) else fs p
      else fs

/-- The `for step in stepValues` loop of `extractValuesFromGrib`: look up
the nearest-point value for each step and assign `data.loc[time + step]`.
Returns `(raised, data)`; on a failed lookup the exception propagates with
the assignments made so far kept (the pandas Series is mutated by
reference in the source). -/
def extractLoop (ds : GribDS) (ncVar : String) (loc : Int × Int) :
    List Int → Series → Bool × Series
  | [], data => (false, data)
  | s :: rest, data =>
      match ds.lookup ncVar s loc with
      | none => (true, data)
      | some v => extractLoop ds ncVar loc rest (seriesSet data (ds.time + s) v)

/-- `ICON_D2.extractValuesFromGrib` from `icon.py`.  Returns
`(raised, data, fs)`.  `xr.open_dataset` raises when the file is missing
or cannot be decoded; the `os.remove(fp)` at the end of the function body
is NOT in a `finally` block, so it only runs when nothing raised. -/
def extractValuesFromGrib (w : World) (fp ncVar : String) (loc : Int × Int)
    (data : Series) (fs : FS) : Bool × Series × FS :=
  match fs fp with
  | none => (true, data, fs)
  | some bytes =>
      match w.openDS bytes with
      | none => (true, data, fs)
      | some ds =>
          match extractLoop ds ncVar loc ds.steps data with
          | (true, d) => (true, d, fs)
          | (false, d) => (false, d, fun p => if p == fp then none else fs p)

/-- Split a character list on a separator character (like Python
`str.split`): every occurrence separates, empty groups kept. -/
def splitOnChar (c : Char) : List Char → List (List Char)
  | [] => [[]]
  | ch :: rest =>
      match splitOnChar c rest with
      | [] => [[]]
      | g :: gs => if ch == c then [] :: g :: gs else (ch :: g) :: gs

/-- Join character-list groups with a dot separator. -/
def joinDot : List (List Char) → List Char
  | [] => []
  | [g] => g
  | g :: gs => g ++ '.' :: joinDot gs

/-- `os.path.basename`: the part of the path after the last slash. -/
def basename (s : String) : String :=
  String.mk ((splitOnChar '/' s.data).getLastD s.data)

/-- `pathlib.Path(name).with_suffix('')`: drop the last dot-suffix of the
filename (e.g. `a.grib2.bz2` becomes `a.grib2`). -/
def withSuffixEmpty (s : String) : String :=
  let parts := splitOnChar '.' s.data
  if parts.length ≤ 1 then s else String.mk (joinDot parts.dropLast)

/-- The scratch path `"{p}/{tmpfn}"` built in `mainDataCollector` for one
artifact URL: the scratch directory, a slash, and the downloaded file's
basename with the compression suffix stripped. -/
def tmpPath (tmpDir url : String) : String :=
  tmpDir ++ "/" ++ withSuffixEmpty (basename url)

/-- The `for url in urls` loop of `mainDataCollector`: per artifact,
download-and-decompress to the scratch path, then extract values inside
`try/except` (an extraction failure is printed and the loop continues with
the series and filesystem it had produced so far). -/
def collectLoop (w : World) (tmpDir ncVar : String) (loc : Int × Int) :
    List String → Series → FS → Series × FS
  | [], data, fs => (data, fs)
  | url :: rest, data, fs =>
      let fs1 := downloadAndExtractBzFile w url (tmpPath tmpDir url) fs
      let r := extractValuesFromGrib w (tmpPath tmpDir url) ncVar loc data fs1
      collectLoop w tmpDir ncVar loc rest r.2.1 r.2.2

/-- `ICON_D2.mainDataCollector` from `icon.py`: build the URL list for one
variable, run the per-artifact loop starting from the empty series, and
return `{varKey: data}`.  Reading `self._tmpFp` raises `AttributeError`
when the constructor never assigned it (see `init`); that crash is
modelled as `none`. -/
def mainDataCollector (w : World) (st : ICONState) (nowHour : Nat) (urlDate : String)
    (varKey ncVar : String) (fs : FS) : Option ((String × Series) × FS) :=
  match st.tmpFp with
  | none => none
  | some tmpDir =>
      let urls := createDownloadUrl st.src st.forecastHours nowHour urlDate varKey
      let r := collectLoop w tmpDir ncVar (st.lat, st.lon) urls [] fs
      some ((varKey, r.1), r.2)

/-- Substring test on character lists: `pat` occurs somewhere inside
`s`. -/
def containsSeg (s pat : List Char) : Bool :=
  (List.range (s.length + 1)).any fun i => pat.isPrefixOf (s.drop i)

/-- Substring test: `pat` occurs somewhere inside `s`. -/
def strContains (s pat : String) : Bool := containsSeg s.data pat.data

/-- The glob pattern `"{tmpDir}/*grib*"` used by `collectData`'s cleanup:
a path directly inside the scratch directory whose filename contains
`grib`. -/
def globMatch (tmpDir p : String) : Bool :=
  let pre := (tmpDir ++ "/").data
  let rest := p.data.drop pre.length
  pre.isPrefixOf p.data && containsSeg rest "grib".data &&
    !(containsSeg rest "/".data)

/-- A `pandas.DataFrame` as used by `collectData`: a row index, named
columns, and the number of times `tz_localize` has been applied to the
index. -/
structure DataFrame where
  index : List Int
  cols : List (String × List (Option Int))
  tzCount : Nat

/-- `data[key] = val` on a DataFrame: an empty frame adopts the series'
index (in the series' insertion order — pandas does not sort here); a
non-empty frame keeps its index and aligns the new column to it, dropping
series labels absent from the index. -/
def dfAssign (df : DataFrame) (key : String) (s : Series) : DataFrame :=
  if df.cols.isEmpty then
    ⟨s.map Prod.fst, [(key, s.map fun e => some e.2)], df.tzCount⟩
  else
    ⟨df.index,
     df.cols ++ [(key, df.index.map fun t => (s.find? fun e => e.1 == t).map Prod.snd)],
     df.tzCount⟩

/-- The sequential (`cores is None`) collection loop of `collectData`:
one `mainDataCollector` call per variable, threading the scratch
filesystem through. -/
def collectVarsLoop (w : World) (st : ICONState) (nowHour : Nat) (urlDate : String) :
    List (String × String) → FS → Option (List (String × Series) × FS)
  | [], fs => some ([], fs)
  | (k, nv) :: rest, fs =>
      match mainDataCollector w st nowHour urlDate k nv fs with
      | none => none
      | some (res, fs1) =>
          match collectVarsLoop w st nowHour urlDate rest fs1 with
          | none => none
          | some (acc, fs2) => some (res :: acc, fs2)

/-- `ICON_D2.collectData` from `icon.py` (sequential path): collect every
variable, assign each resulting series as a DataFrame column in variable
order, delete every scratch file matching `"{tmpDir}/*grib*"`, and apply
`tz_localize("UTC")` to the row index once.  No sorting of the index is
performed anywhere. -/
def collectData (w : World) (st : ICONState) (nowHour : Nat) (urlDate : String)
    (varList : List (String × String)) (fs : FS) : Option (DataFrame × FS) :=
  match st.tmpFp with
  | none => none
  | some tmpDir =>
      match collectVarsLoop w st nowHour urlDate varList fs with
      | none => none
      | some (results, fs1) =>
          let df := results.foldl (fun d kv => dfAssign d kv.1 kv.2) ⟨[], [], 0⟩
          some (⟨df.index, df.cols, df.tzCount + 1⟩,
                fun p => if globMatch tmpDir p = true then none else fs1 p)

end ICON_D2

/-- The observable result of one artifact fetch, for stating the
partial-failure property: either the artifact was served, decompressed and
decoded to a one-step dataset carrying valid time `t` and value `v`, or
the fetch failed outright. -/
inductive FetchOutcome where
  | ok (t v : Int)
  | failFetch

/-- The environment exhibits outcome `o` for artifact `url`: for `ok t v`,
the HTTP fetch succeeds with status 200, the payload decompresses and
opens as a dataset with exactly one step whose valid time is `t` and whose
nearest-point value is `v`; for `failFetch`, the fetch dies on a transport
error or a non-200 status. -/
def urlOutcome (w : World) (ncVar : String) (loc : Int × Int) (url : String) :
    FetchOutcome → Prop
  | .ok t v => ∃ c d ds s, w.http url = some (200, c) ∧ w.decomp c = some d ∧
      w.openDS d = some ds ∧ ds.steps = [s] ∧ ds.time + s = t ∧
      ds.lookup ncVar s loc = some v
  | .failFetch => w.http url = none ∨ ∃ s c, w.http url = some (s, c) ∧ s ≠ 200

/-- The valid times of the successful outcomes, in order. -/
def okTimes : List FetchOutcome → List Int
  | [] => []
  | .ok t _ :: rest => t :: okTimes rest
  | .failFetch :: rest => okTimes rest

/-- The number of failed fetches among the outcomes. -/
def countFail : List FetchOutcome → Nat
  | [] => 0
  | .ok _ _ :: rest => countFail rest
  | .failFetch :: rest => 1 + countFail rest

namespace AppUtils

/-- `max(times)` over the non-empty list of parsed route times from
`app/utils.py` (`get_values_for_route`).  Times are integer epoch
seconds. -/
def maxTimes (t : Int) (ts : List Int) : Int := ts.foldl max t

/-- The `forecast_hours` computation of `app/utils.py` line 46:
`int(np.ceil(abs(max(times) - now).total_seconds() / 3600))`, i.e. the
ceiling of the ABSOLUTE time difference in hours (exact arithmetic on
integer seconds; `abs` of a timedelta is non-negative, so the ceiling is
the rounded-up natural division). -/
def routeForecastHours (now t : Int) (ts : List Int) : Int :=
  ((((maxTimes t ts - now).natAbs + 3599) / 3600 : Nat) : Int)

/-- `k` is the ceiling of the SIGNED quantity `d` seconds expressed in
hours, `k = ⌈d / 3600⌉`, characterized order-theoretically.  Stated from
the claim's words (`ceil(max(requestedTime) − now, in hours)` as a signed
difference), to be compared with `routeForecastHours`. -/
abbrev IsSignedCeilHours (d k : Int) : Prop :=
  3600 * (k - 1) < d ∧ d ≤ 3600 * k

/-- The UTC day containing a timestamp given in minutes. -/
def dayOf (t : Int) : Int := Int.fdiv t 1440

/-- Modelled from the spec: the per-variable table produced by
`ICON_EU.collectData` — the class `ICON_EU` is imported by `app/utils.py`
but absent from the repository's source — is, per §3/§4.6, a mapping
keyed by location index with a UTC-localized valid-time row index.  It is
modelled as a list of `(locationIndex, validTime, value)` entries with
valid times in UTC minutes. -/
abbrev RouteTable := List (Nat × Int × Int)

/-- The value lookup of `app/utils.py` line 61:
`data[variable][str(i), now.strftime("%Y-%m-%d")][time_utc_minute]` —
select the rows of location `i` lying on the CURRENT fetch day, then look
up the requested minute-precision UTC timestamp among them.  A miss
raises `KeyError` (`none`). -/
def routeLookup (table : RouteTable) (i : Nat) (today : Int) (t : Int) : Option Int :=
  ((table.filter fun e => e.1 == i && dayOf e.2.1 == today).find?
    fun e => e.2.1 == t).map fun e => e.2.2

/-- The list comprehension of `app/utils.py` lines 60-63, resolving each
enumerated route point; the first lookup miss propagates as an error
(there is no `try/except` in `get_values_for_route`). -/
def resolveLoop (table : RouteTable) (today : Int) :
    List (Nat × Int) → Except Unit (List Int)
  | [] => .ok []
  | (i, t) :: rest =>
      match routeLookup table i today t with
      | none => .error ()
      | some v =>
          match resolveLoop table today rest with
          | .error e => .error e
          | .ok vs => .ok (v :: vs)

/-- `get_values_for_route` of `app/utils.py`, restricted to its
table-lookup phase: resolve every route point (indexed by position) in the
table, keying the day part by the current fetch date `today`. -/
def get_values_for_route (table : RouteTable) (today : Int)
    (times : List Int) : Except Unit (List Int) :=
  resolveLoop table today times.enum

end AppUtils

end DwdGrib

open DwdGrib DwdGrib.ICON_D2 DwdGrib.AppUtils

namespace DwdGrib

/-- A world whose HTTP oracle always answers 200 with body `[1, 2, 3]` and
whose decompressor always fails (corrupt payload). -/
def wCorruptBz : World :=
  ⟨fun _ => some (200, [1, 2, 3]), fun _ => none, fun _ => none⟩

/-- A world that serves byte `[9]` which then fails to open as a grib
dataset. -/
def wBadGrib : World :=
  ⟨fun _ => some (200, [9]), fun b => some b, fun _ => none⟩

/-- A world whose grib files always open to a one-step dataset with base
time 100 and constant value 7. -/
def wGoodGrib : World :=
  ⟨fun _ => some (200, [1]), fun b => some b,
   fun _ => some ⟨100, [0], fun _ _ _ => some 7⟩⟩

/-- A scratch filesystem holding one file `"f"` with contents `[9]`. -/
def fsOneGrib : FS := fun p => if p == "f" then some [9] else none

/-- An instance state with scratch directory `"tmp"`, three forecast
hours, and a short source base path. -/
def st7 : ICON_D2.ICONState := ⟨some "tmp", some 3, 0, 0, "s/"⟩

/-- A world in which the lead-hour-1 artifact suffers a transport error
while lead hours 0 and 2 decode to one-step datasets with valid times 100
and 200. -/
def w7 : World :=
  ⟨fun u => if ICON_D2.strContains u "_001_" then none
            else some (200, [if ICON_D2.strContains u "_000_" then 0 else 2]),
   fun b => some b,
   fun b => if b == [0] then some ⟨100, [0], fun _ _ _ => some 7⟩
            else some ⟨200, [0], fun _ _ _ => some 8⟩⟩

/-- An instance state with scratch directory `"tmp"` and two forecast
hours. -/
def stRev : ICON_D2.ICONState := ⟨some "tmp", some 2, 0, 0, "s/"⟩

/-- A world whose lead-hour-0 artifact carries valid time 100 while the
lead-hour-1 artifact carries the EARLIER valid time 0: artifact processing
order then disagrees with chronological order. -/
def wRev : World :=
  ⟨fun u => some (200, [if ICON_D2.strContains u "_000_" then 0 else 1]),
   fun b => some b,
   fun b => if b == [0] then some ⟨100, [0], fun _ _ _ => some 7⟩
            else some ⟨0, [0], fun _ _ _ => some 8⟩⟩

/-- A default-constructed instance state (scratch directory
`"tmp/icond2/"`). -/
def st0 : ICON_D2.ICONState := (ICON_D2.init 0 0 (some 3) none []).1

end DwdGrib

/-- C1: the claim states `getCurrentRun` realizes the spec's step table,
in particular hour 23 → "21" and hour 1 → "21".  In the code the final
guard `h >= 23 and h < 2` is unsatisfiable, so hour 23 yields "18" and
hours 0 and 1 yield the initial "00"; every hour in `[2,23)` does match
the spec table.  This theorem evaluates the code at the failing inputs
and records the agreement elsewhere. -/
theorem getCurrentRun_deviates_from_spec_table :
    getCurrentRun 23 = "18" ∧ specRunTable 23 = "21" ∧
    getCurrentRun 0 = "00" ∧ specRunTable 0 = "21" ∧
    getCurrentRun 1 = "00" ∧ specRunTable 1 = "21" ∧
    getCurrentRun 2 = "00" ∧ getCurrentRun 13 = "09" ∧
    (((List.range 23).drop 2).all fun h => getCurrentRun h == specRunTable h) = true := by
  decide

/-- C2: the claim states that a non-None `tmpFp` argument overrides the
scratch directory.  In the code the `else` branch executes
`self._forecastHours = tmpFp` instead of `self._tmpFp = tmpFp`, so the
caller-provided directory is dropped (`_tmpFp` stays unassigned, modelled
as `none`), while the default branch does set `"tmp/icond2/"` and create
it, and `_forecastHours` ends up as the `forecastHours` argument in both
branches. -/
theorem init_drops_caller_tmpFp :
    (ICON_D2.init 47 15 (some 3) (some "/tmp/icon_cache") []).1.tmpFp = none ∧
    (ICON_D2.init 47 15 (some 3) (some "/tmp/icon_cache") []).1.forecastHours = some 3 ∧
    (ICON_D2.init 47 15 (some 3) none []).1.tmpFp = some "tmp/icond2/" ∧
    (ICON_D2.init 47 15 (some 3) none []).2 = ["tmp/icond2/"] ∧
    (ICON_D2.init 47 15 (some 3) none []).1.forecastHours = some 3 := by
  refine ⟨rfl, rfl, rfl, rfl, rfl⟩

/-- C3 (counterexample): the claim states that on any failure, including a
decompression error, no file is left at `destPath`.  But on HTTP 200 the
source opens `destFp` for writing before `decompress` is evaluated, so
when decompression fails an (empty) file exists at `destPath` although no
decoded payload was written. -/
theorem downloadAndExtractBzFile_leaves_empty_file :
    wCorruptBz.decomp [1, 2, 3] = none ∧
    downloadAndExtractBzFile wCorruptBz "u" "d" (fun _ => none) "d" = some [] :=
  ⟨rfl, rfl⟩

/-- C3 (amended): `downloadAndExtractBzFile` never raises (it is a total
map on the filesystem) and touches no path other than `destFp`; on a
transport error or a non-200 status the filesystem is unchanged (no
partial file); on a decompression error an empty file is left at
`destFp`; on success the full decoded payload is written there. -/
theorem downloadAndExtractBzFile_failure_semantics (w : World) (url destFp : String)
    (fs : FS) :
    (w.http url = none → downloadAndExtractBzFile w url destFp fs = fs) ∧
    (∀ s c, w.http url = some (s, c) → s ≠ 200 →
      downloadAndExtractBzFile w url destFp fs = fs) ∧
    (∀ c, w.http url = some (200, c) → w.decomp c = none →
      downloadAndExtractBzFile w url destFp fs destFp = some []) ∧
    (∀ c d, w.http url = some (200, c) → w.decomp c = some d →
      downloadAndExtractBzFile w url destFp fs destFp = some d) ∧
    (∀ p, p ≠ destFp → downloadAndExtractBzFile w url destFp fs p = fs p) := by
  refine ⟨?_, ?_, ?_, ?_, ?_⟩
  · intro h
    simp [downloadAndExtractBzFile, h]
  · intro s c h hs
    simp [downloadAndExtractBzFile, h, hs]
  · intro c h hd
    simp [downloadAndExtractBzFile, h, hd]
  · intro c d h hd
    simp [downloadAndExtractBzFile, h, hd]
  · intro p hp
    unfold downloadAndExtractBzFile
    cases h : w.http url with
    | none => rfl
    | some sc =>
        obtain ⟨s, c⟩ := sc
        by_cases hs : s == 200
        · simp only [hs, if_pos]
          cases hd : w.decomp c <;> simp [hp]
        · simp [hs]

/-- C3 (witness for the amended theorem): concrete decompression-failure
run leaving the empty file. -/
theorem downloadAndExtractBzFile_failure_semantics_witness :
    downloadAndExtractBzFile wCorruptBz "u" "d" (fun _ => none) "d" = some [] :=
  (downloadAndExtractBzFile_failure_semantics wCorruptBz "u" "d"
    (fun _ => none)).2.2.1 [1, 2, 3] rfl rfl

/-- C4 (counterexample): the claim states the scratch file is deleted on
both success and failure.  `os.remove(fp)` is the last statement of the
function body, not a `finally` clause: when opening the dataset raises,
the file survives. -/
theorem extractValuesFromGrib_keeps_file_on_failure :
    (extractValuesFromGrib wBadGrib "f" "V" (0, 0) [] fsOneGrib).1 = true ∧
    (extractValuesFromGrib wBadGrib "f" "V" (0, 0) [] fsOneGrib).2.2 "f" = some [9] :=
  ⟨rfl, rfl⟩

/-- C4 (amended): `extractValuesFromGrib` deletes `decodedPath` exactly on
success; whenever decoding or extraction raises, the filesystem is left
unchanged and the scratch file survives (it is only swept later by
`collectData`'s end-of-batch cleanup). -/
theorem extractValuesFromGrib_removal_semantics (w : World) (fp ncVar : String)
    (loc : Int × Int) (data : Series) (fs : FS) :
    ((extractValuesFromGrib w fp ncVar loc data fs).1 = false →
      (extractValuesFromGrib w fp ncVar loc data fs).2.2 fp = none) ∧
    ((extractValuesFromGrib w fp ncVar loc data fs).1 = true →
      (extractValuesFromGrib w fp ncVar loc data fs).2.2 = fs) := by
  unfold extractValuesFromGrib
  cases hf : fs fp with
  | none => simp
  | some bytes =>
      cases ho : w.openDS bytes with
      | none => simp [ho]
      | some ds =>
          cases hl : extractLoop ds ncVar loc ds.steps data with
          | mk raised d => cases raised <;> simp [ho, hl]

/-- C4 (witness for the amended theorem): a concrete successful extraction
removes the scratch file. -/
theorem extractValuesFromGrib_removal_semantics_witness :
    (extractValuesFromGrib wGoodGrib "f" "V" (0, 0) [] fsOneGrib).2.2 "f" = none :=
  (extractValuesFromGrib_removal_semantics wGoodGrib "f" "V" (0, 0) [] fsOneGrib).1 rfl

/-- C8: `createDownloadUrl` with hour count `h` returns exactly `h`
artifact URLs, one per lead hour `0..h-1` in that order, all identical
except the zero-padded lead-hour segment; with the hour count unspecified
(`None`) it returns exactly 49 entries. -/
theorem createDownloadUrl_structure (src : String) (hours : Nat) (nowHour : Nat)
    (urlDate var : String) :
    (createDownloadUrl src (some hours) nowHour urlDate var).length = hours ∧
    (∃ pre suf, createDownloadUrl src (some hours) nowHour urlDate var =
      (List.range hours).map fun i => pre ++ zfill2 i ++ suf) ∧
    (createDownloadUrl src none nowHour urlDate var).length = 49 := by
  refine ⟨by simp [createDownloadUrl], ?_, by simp [createDownloadUrl]⟩
  refine ⟨src ++ getCurrentRun nowHour ++ "/" ++ var ++ "/" ++
      "icon-d2_germany_regular-lat-lon_single-level_" ++ urlDate ++
      getCurrentRun nowHour ++ "_0", "_2d_" ++ var ++ ".grib2.bz2", ?_⟩
  simp only [createDownloadUrl, Option.getD]
  refine congrArg (fun f => List.map f (List.range hours)) (funext fun i => ?_)
  simp only [String.append_assoc]

/-- C5 (counterexample): the claim states the horizon equals the ceiling
of the SIGNED difference `max(requestedTime) − now` in hours.  With the
latest requested time 7200 seconds in the past, the signed ceiling is −2
but the code computes `ceil(abs(...))` = 2. -/
theorem routeForecastHours_not_signed_ceiling :
    routeForecastHours 7200 0 [] = 2 ∧
    ¬ IsSignedCeilHours (maxTimes 0 [] - 7200) (routeForecastHours 7200 0 []) := by
  constructor
  · decide
  · unfold routeForecastHours maxTimes
    decide

/-- C5 (amended): the horizon computed by `get_values_for_route` is the
ceiling of the ABSOLUTE difference `|max(requestedTime) − now|` in hours;
this agrees with the signed ceiling of the claim exactly when the latest
requested time is not in the past. -/
theorem routeForecastHours_signed_ceiling_of_future (now t : Int) (ts : List Int)
    (h : now ≤ maxTimes t ts) :
    IsSignedCeilHours (maxTimes t ts - now) (routeForecastHours now t ts) := by
  unfold routeForecastHours
  constructor <;> omega

/-- C5 (witness for the amended theorem): a route one hour ahead yields
horizon 1, the signed ceiling. -/
theorem routeForecastHours_signed_ceiling_of_future_witness :
    IsSignedCeilHours (maxTimes 3600 [] - 0) (routeForecastHours 0 3600 []) :=
  routeForecastHours_signed_ceiling_of_future 0 3600 [] (by decide)

/-- Helper: if some enumerated route point's lookup misses, the whole
resolution loop errors (the first `KeyError` aborts the comprehension). -/
theorem resolveLoop_error_of_miss (table : RouteTable) (today : Int) :
    ∀ l : List (Nat × Int), (∃ p ∈ l, routeLookup table p.1 today p.2 = none) →
    resolveLoop table today l = .error () := by
  intro l
  induction l with
  | nil => rintro ⟨p, hp, -⟩; simp at hp
  | cons hd tl ih =>
      rintro ⟨p, hp, hnone⟩
      obtain ⟨i0, t0⟩ := hd
      rcases List.mem_cons.mp hp with h | h
      · subst h
        unfold resolveLoop
        rw [hnone]
      · unfold resolveLoop
        cases hl : routeLookup table i0 today t0 with
        | none => rfl
        | some v => rw [ih ⟨p, h, hnone⟩]

/-- C6: a route point whose requested time's containing UTC day differs
from the current fetch day always misses the table lookup — the lookup
filters rows by the fetch date, so no row can carry the requested
timestamp — and the miss propagates out of `get_values_for_route` as an
error rather than a value. -/
theorem route_lookup_date_mismatch (table : RouteTable) (today : Int)
    (i : Nat) (t : Int) (times : List Int)
    (hday : dayOf t ≠ today) (hmem : (i, t) ∈ times.enum) :
    routeLookup table i today t = none ∧
    get_values_for_route table today times = .error () := by
  have h1 : routeLookup table i today t = none := by
    unfold routeLookup
    cases hfind : (table.filter fun e => e.1 == i && dayOf e.2.1 == today).find?
        (fun e => e.2.1 == t) with
    | none => rfl
    | some e =>
        exfalso
        have hpe := List.find?_some hfind
        have hmem' := List.mem_filter.mp (List.mem_of_find?_eq_some hfind)
        have h2 := hmem'.2
        simp only [Bool.and_eq_true, beq_iff_eq] at hpe h2
        exact hday (by rw [← hpe]; exact h2.2)
  refine ⟨h1, ?_⟩
  unfold get_values_for_route
  exact resolveLoop_error_of_miss table today times.enum ⟨(i, t), hmem, h1⟩

/-- C6 (witness): a table whose single entry lies on day 10 and a route
requesting a day-10 time while the fetch day is 11: the lookup misses and
the route resolution errors. -/
theorem route_lookup_date_mismatch_witness :
    routeLookup [(0, 14460, 5)] 0 11 14460 = none ∧
    get_values_for_route [(0, 14460, 5)] 11 [14460] = .error () :=
  route_lookup_date_mismatch [(0, 14460, 5)] 11 0 14460 [14460]
    (by decide) (by decide)

/-- Helper: successful and failed outcomes partition the outcome list. -/
theorem okTimes_length_add_countFail (l : List FetchOutcome) :
    (okTimes l).length + countFail l = l.length := by
  induction l with
  | nil => rfl
  | cons hd tl ih => cases hd <;> simp [okTimes, countFail] <;> omega

/-- Helper: the per-artifact loop of `mainDataCollector`, run over
artifacts with the given fetch outcomes from a scratch directory holding
none of the artifacts' scratch files, appends exactly one series entry per
successful outcome (given the successful valid times are fresh and
pairwise distinct). -/
theorem collectLoop_partial (w : World) (tmpDir ncVar : String) (loc : Int × Int) :
    ∀ (urls : List String) (outs : List FetchOutcome) (data : Series) (fs : FS),
    List.Forall₂ (urlOutcome w ncVar loc) urls outs →
    (∀ u ∈ urls, fs (tmpPath tmpDir u) = none) →
    (∀ t, t ∈ okTimes outs → data.any (fun e => e.1 == t) = false) →
    (okTimes outs).Nodup →
    (collectLoop w tmpDir ncVar loc urls data fs).1.length =
      data.length + (okTimes outs).length := by
  intro urls outs data fs hF
  induction hF generalizing data fs with
  | nil =>
      intro _ _ _
      simp [collectLoop, okTimes]
  | @cons url out urls outs hrel htl ih =>
      intro hfs hfresh hnodup
      cases out with
      | failFetch =>
          have hfs1 : downloadAndExtractBzFile w url (tmpPath tmpDir url) fs = fs := by
            rcases hrel with hnone | ⟨s, c, hhttp, hs⟩
            · unfold downloadAndExtractBzFile
              rw [hnone]
            · unfold downloadAndExtractBzFile
              rw [hhttp]
              simp [hs]
          have hext : extractValuesFromGrib w (tmpPath tmpDir url) ncVar loc data fs =
              (true, data, fs) := by
            unfold extractValuesFromGrib
            rw [hfs url (List.mem_cons_self _ _)]
          have hstep : collectLoop w tmpDir ncVar loc (url :: urls) data fs =
              collectLoop w tmpDir ncVar loc urls data fs := by
            show collectLoop w tmpDir ncVar loc urls
                (extractValuesFromGrib w (tmpPath tmpDir url) ncVar loc data
                  (downloadAndExtractBzFile w url (tmpPath tmpDir url) fs)).2.1
                (extractValuesFromGrib w (tmpPath tmpDir url) ncVar loc data
                  (downloadAndExtractBzFile w url (tmpPath tmpDir url) fs)).2.2 =
              collectLoop w tmpDir ncVar loc urls data fs
            rw [hfs1, hext]
          rw [hstep]
          exact ih data fs (fun u hu => hfs u (List.mem_cons_of_mem _ hu)) hfresh hnodup
      | ok t v =>
          obtain ⟨c, d, ds, s, hhttp, hdec, hopen, hsteps, htime, hlook⟩ := hrel
          have hfresht : data.any (fun e => e.1 == t) = false :=
            hfresh t (List.mem_cons_self _ _)
          have hfs1 : downloadAndExtractBzFile w url (tmpPath tmpDir url) fs =
              fun p => if p == tmpPath tmpDir url then some d else fs p := by
            unfold downloadAndExtractBzFile
            rw [hhttp]
            simp [hdec]
          have hext : ∀ fs' : FS, fs' (tmpPath tmpDir url) = some d →
              extractValuesFromGrib w (tmpPath tmpDir url) ncVar loc data fs' =
              (false, data ++ [(t, v)],
                fun p => if p == tmpPath tmpDir url then none else fs' p) := by
            intro fs' hfp
            simp only [extractValuesFromGrib, hfp, hopen, hsteps, extractLoop,
              hlook, htime, seriesSet, hfresht]
            simp
          have hstep : collectLoop w tmpDir ncVar loc (url :: urls) data fs =
              collectLoop w tmpDir ncVar loc urls (data ++ [(t, v)])
                (fun p => if p == tmpPath tmpDir url then none else fs p) := by
            show collectLoop w tmpDir ncVar loc urls
                (extractValuesFromGrib w (tmpPath tmpDir url) ncVar loc data
                  (downloadAndExtractBzFile w url (tmpPath tmpDir url) fs)).2.1
                (extractValuesFromGrib w (tmpPath tmpDir url) ncVar loc data
                  (downloadAndExtractBzFile w url (tmpPath tmpDir url) fs)).2.2 = _
            rw [hfs1, hext _ (by simp)]
            show collectLoop w tmpDir ncVar loc urls (data ++ [(t, v)]) _ = _
            congr 1
            funext p
            by_cases hp : (p == tmpPath tmpDir url) = true <;> simp [hp]
          rw [hstep]
          have hfs' : ∀ u ∈ urls,
              (fun p => if p == tmpPath tmpDir url then none else fs p)
                (tmpPath tmpDir u) = none := by
            intro u hu
            by_cases hp : (tmpPath tmpDir u == tmpPath tmpDir url) = true <;> simp [hp]
            exact hfs u (List.mem_cons_of_mem _ hu)
          have hfresh' : ∀ t', t' ∈ okTimes outs →
              ((data ++ [(t, v)]).any fun e => e.1 == t') = false := by
            intro t' ht'
            have h1 : data.any (fun e => e.1 == t') = false :=
              hfresh t' (List.mem_cons_of_mem _ ht')
            have h2 : (t == t') = false := by
              have hnm : t ∉ okTimes outs := (List.nodup_cons.mp hnodup).1
              exact beq_eq_false_iff_ne.mpr fun he => hnm (he ▸ ht')
            simp [List.any_append, h1, h2]
          have hnodup' : (okTimes outs).Nodup := (List.nodup_cons.mp hnodup).2
          rw [ih (data ++ [(t, v)]) _ hfs' hfresh' hnodup']
          simp [okTimes]
          omega

/-- C7: if the environment fails exactly one of the `N` planned artifact
fetches and yields a one-step dataset for each of the other `N−1` (with
pairwise-distinct valid times), then `mainDataCollector` — whose loop
swallows every per-artifact failure, so it returns normally — produces a
series with exactly `N−1` entries. -/
theorem mainDataCollector_partial_failure (w : World) (st : ICONState)
    (nowHour : Nat) (urlDate varKey ncVar : String) (fs : FS) (tmpDir : String)
    (outs : List FetchOutcome)
    (hdir : st.tmpFp = some tmpDir)
    (hout : List.Forall₂ (urlOutcome w ncVar (st.lat, st.lon))
      (createDownloadUrl st.src st.forecastHours nowHour urlDate varKey) outs)
    (hfs : ∀ u ∈ createDownloadUrl st.src st.forecastHours nowHour urlDate varKey,
      fs (tmpPath tmpDir u) = none)
    (hnodup : (okTimes outs).Nodup)
    (hfail : countFail outs = 1) :
    (mainDataCollector w st nowHour urlDate varKey ncVar fs).map
      (fun r => r.1.2.length) =
    some ((createDownloadUrl st.src st.forecastHours nowHour urlDate varKey).length
      - 1) := by
  unfold mainDataCollector
  rw [hdir]
  have hlen := collectLoop_partial w tmpDir ncVar (st.lat, st.lon)
    (createDownloadUrl st.src st.forecastHours nowHour urlDate varKey) outs [] fs
    hout hfs (fun t _ => rfl) hnodup
  have hcnt := okTimes_length_add_countFail outs
  have heq := List.Forall₂.length_eq hout
  simp only [Option.map_some']
  rw [hlen]
  simp
  omega

/-- C7 (witness): three planned artifacts of which the lead-hour-1 fetch
dies on a transport error while lead hours 0 and 2 extract one entry each:
the collected series has exactly 2 entries. -/
theorem mainDataCollector_partial_failure_witness :
    (mainDataCollector w7 st7 3 "20240502" "t_2m" "t2m" (fun _ => none)).map
      (fun r => r.1.2.length) = some 2 := by
  have hout : List.Forall₂ (urlOutcome w7 "t2m" (st7.lat, st7.lon))
      (createDownloadUrl st7.src st7.forecastHours 3 "20240502" "t_2m")
      [.ok 100 7, .failFetch, .ok 200 8] := by
    refine List.Forall₂.cons ?_ (List.Forall₂.cons ?_
      (List.Forall₂.cons ?_ List.Forall₂.nil))
    · exact ⟨[0], [0], ⟨100, [0], fun _ _ _ => some 7⟩, 0, rfl, rfl, rfl, rfl, rfl, rfl⟩
    · exact Or.inl rfl
    · exact ⟨[2], [2], ⟨200, [0], fun _ _ _ => some 8⟩, 0, rfl, rfl, rfl, rfl, rfl, rfl⟩
  have h := mainDataCollector_partial_failure w7 st7 3 "20240502" "t_2m" "t2m"
    (fun _ => none) "tmp" [.ok 100 7, .failFetch, .ok 200 8] rfl hout
    (fun u _ => rfl) (by decide) rfl
  have hl : (createDownloadUrl st7.src st7.forecastHours 3 "20240502" "t_2m").length
      = 3 := rfl
  rw [hl] at h
  exact h

/-- Helper: assigning a column does not touch the localization counter. -/
theorem dfAssign_tzCount (df : DataFrame) (k : String) (s : Series) :
    (dfAssign df k s).tzCount = df.tzCount := by
  unfold dfAssign
  split <;> rfl

/-- Helper: a frame has at least one column after an assignment. -/
theorem dfAssign_cols_ne_nil (df : DataFrame) (k : String) (s : Series) :
    (dfAssign df k s).cols ≠ [] := by
  unfold dfAssign
  split <;> simp

/-- Helper: assigning a column to a frame that already has columns leaves
the row index unchanged (pandas aligns, it does not extend). -/
theorem dfAssign_index_of_cols_ne_nil (df : DataFrame) (k : String) (s : Series)
    (h : df.cols ≠ []) : (dfAssign df k s).index = df.index := by
  unfold dfAssign
  rw [if_neg (by simp [List.isEmpty_iff, h])]

/-- Helper: folding column assignments preserves the localization
counter. -/
theorem foldl_dfAssign_tzCount (l : List (String × Series)) :
    ∀ df : DataFrame,
    (l.foldl (fun d kv => dfAssign d kv.1 kv.2) df).tzCount = df.tzCount := by
  induction l with
  | nil => intro df; rfl
  | cons hd tl ih => intro df; rw [List.foldl_cons, ih, dfAssign_tzCount]

/-- Helper: folding column assignments onto a frame that already has a
column never changes the row index. -/
theorem foldl_dfAssign_index (l : List (String × Series)) :
    ∀ df : DataFrame, df.cols ≠ [] →
    (l.foldl (fun d kv => dfAssign d kv.1 kv.2) df).index = df.index := by
  induction l with
  | nil => intro df _; rfl
  | cons hd tl ih =>
      intro df h
      rw [List.foldl_cons, ih _ (dfAssign_cols_ne_nil df hd.1 hd.2),
        dfAssign_index_of_cols_ne_nil df hd.1 hd.2 h]

/-- Helper: with the scratch directory attribute present, the sequential
per-variable loop always returns normally. -/
theorem collectVarsLoop_isSome (w : World) (st : ICONState) (nowHour : Nat)
    (urlDate : String) (tmpDir : String) (h : st.tmpFp = some tmpDir) :
    ∀ (l : List (String × String)) (fs : FS),
    (collectVarsLoop w st nowHour urlDate l fs).isSome = true := by
  intro l
  induction l with
  | nil => intro fs; rfl
  | cons hd tl ih =>
      intro fs
      obtain ⟨k0, nv0⟩ := hd
      simp only [collectVarsLoop, mainDataCollector, h]
      cases hr : collectVarsLoop w st nowHour urlDate tl
          ((collectLoop w tmpDir nv0 (st.lat, st.lon)
            (createDownloadUrl st.src st.forecastHours nowHour urlDate k0) [] fs).2) with
      | none =>
          have := ih ((collectLoop w tmpDir nv0 (st.lat, st.lon)
            (createDownloadUrl st.src st.forecastHours nowHour urlDate k0) [] fs).2)
          rw [hr] at this
          exact absurd this (by simp)
      | some pr =>
          obtain ⟨acc, fs2⟩ := pr
          rfl

/-- C9 (amended): `collectData` applies the UTC localization to the row
index exactly once, and the row index is exactly the first variable's
series valid-times in artifact-processing (insertion) order — no sort is
performed — so it is monotonic precisely when the artifacts are processed
in chronological valid-time order. -/
theorem collectData_tz_once_index_unsorted (w : World) (st : ICONState)
    (nowHour : Nat) (urlDate : String) (k nv : String)
    (rest : List (String × String)) (fs : FS) :
    ((collectData w st nowHour urlDate ((k, nv) :: rest) fs).map
      fun r => r.1.tzCount) =
      ((collectData w st nowHour urlDate ((k, nv) :: rest) fs).map fun _ => 1) ∧
    ((collectData w st nowHour urlDate ((k, nv) :: rest) fs).map
      fun r => r.1.index) =
      ((mainDataCollector w st nowHour urlDate k nv fs).map
        fun r => r.1.2.map Prod.fst) := by
  cases hdir : st.tmpFp with
  | none =>
      constructor
      · simp [collectData, hdir]
      · simp [collectData, mainDataCollector, hdir]
  | some tmpDir =>
      cases hm : mainDataCollector w st nowHour urlDate k nv fs with
      | none =>
          constructor
          · simp [collectData, hdir, collectVarsLoop, hm]
          · simp [collectData, hdir, collectVarsLoop, hm]
      | some r1 =>
          obtain ⟨res, fs1⟩ := r1
          have hsome := collectVarsLoop_isSome w st nowHour urlDate tmpDir hdir rest fs1
          obtain ⟨⟨acc, fs2⟩, hacc⟩ := Option.isSome_iff_exists.mp hsome
          have hcd : collectData w st nowHour urlDate ((k, nv) :: rest) fs =
              some (⟨(res.2.map Prod.fst),
                ((res :: acc).foldl (fun d kv => dfAssign d kv.1 kv.2)
                  (⟨[], [], 0⟩ : DataFrame)).cols,
                1⟩,
                fun p => if globMatch tmpDir p = true then none else fs2 p) := by
            simp only [collectData, hdir, collectVarsLoop, hm, hacc]
            have h1 : ((res :: acc).foldl (fun d kv => dfAssign d kv.1 kv.2)
                (⟨[], [], 0⟩ : DataFrame)).tzCount = 0 := by
              rw [List.foldl_cons, foldl_dfAssign_tzCount, dfAssign_tzCount]
            have h2 : ((res :: acc).foldl (fun d kv => dfAssign d kv.1 kv.2)
                (⟨[], [], 0⟩ : DataFrame)).index = res.2.map Prod.fst := by
              rw [List.foldl_cons,
                foldl_dfAssign_index _ _ (dfAssign_cols_ne_nil _ res.1 res.2)]
              simp [dfAssign]
            rw [h1, h2]
          constructor
          · rw [hcd]
            rfl
          · rw [hcd]
            rfl

/-- C9 (counterexample): the claim states the assembled time index is
monotonic regardless of artifact processing order.  In a run whose
lead-hour-0 artifact carries valid time 100 and whose lead-hour-1 artifact
carries valid time 0, the assembled index is `[100, 0]` — insertion order,
never sorted — which is not monotonic. -/
theorem collectData_index_not_monotone :
    ((collectData wRev stRev 3 "20240502" [("t_2m", "t2m")] (fun _ => none)).map
      fun r => r.1.index) = some [100, 0] ∧
    ¬ List.Chain' (fun a b : Int => a ≤ b) [100, 0] := by
  constructor
  · rfl
  · simp

/-- C10: after `collectData` returns, no file matching the scratch glob
`"{tmpDir}/*grib*"` remains: the end-of-batch sweep deletes every path in
the scratch directory whose name contains `grib` (in particular residues
of failed extractions). -/
theorem collectData_sweeps_scratch (w : World) (st : ICONState) (nowHour : Nat)
    (urlDate : String) (varList : List (String × String)) (fs : FS)
    (tmpDir p : String) (r : DataFrame × FS)
    (h1 : st.tmpFp = some tmpDir)
    (h2 : collectData w st nowHour urlDate varList fs = some r)
    (h3 : globMatch tmpDir p = true) :
    r.2 p = none := by
  simp only [collectData, h1] at h2
  cases hr : collectVarsLoop w st nowHour urlDate varList fs with
  | none => rw [hr] at h2; exact absurd h2 (by simp)
  | some pr =>
      obtain ⟨results, fs1⟩ := pr
      rw [hr] at h2
      obtain rfl := Option.some.inj h2
      simp [h3]

/-- C10 (witness): a concrete completed batch from the default scratch
directory; a leftover `.grib2` file in that directory is gone from the
returned filesystem. -/
theorem collectData_sweeps_scratch_witness :
    ((⟨[], [], 1⟩ : DataFrame),
      (fun p => if globMatch "tmp/icond2/" p = true then none else none : FS)).2
      "tmp/icond2//x.grib2" = none :=
  collectData_sweeps_scratch wGoodGrib st0 3 "d" [] (fun _ => none) "tmp/icond2/"
    "tmp/icond2//x.grib2" _ rfl rfl rfl
